import Mathlib

/-!
Shallow embedding of the rotate ("rotn") encryptor example in
src/examples/c/ex_encrypt.c and proofs about its contract.

Buffers are modelled as lists of byte values (Nat). The C `size_t` and
`uint32_t` arithmetic that can wrap is made explicit: wrapping size_t
subtraction and addition carry a % 2^64, the uint32_t call counter is
advanced with a wrapping increment (uinc32), and the rotate loop,
which indexes with a uint32_t against a size_t length and therefore
never terminates once the length reaches 2^32, is modelled as an
Option: do_rotate returns none exactly on the lengths where the C loop
diverges, and rotate_encrypt / rotate_decrypt propagate that none as
their own divergence. Calls to random() inside make_cksum/make_iv are
modelled by a stream `r : Nat -> Nat` supplied by the environment.
Memory allocation is modelled as always succeeding (a failed
calloc/malloc returns errno in the C code); whether each allocation is
still live when a function returns is tracked explicitly in the output
structures, mirroring the free() calls of the C code. Out-of-bounds
reads by memcpy (undefined behavior in C) are modelled as reading 0.
-/

/-- CHKSUM_LEN from ex_encrypt.c. -/
def CHKSUM_LEN : Nat := 4

/-- IV_LEN from ex_encrypt.c. -/
def IV_LEN : Nat := 16

/-- POSIX errno value ENOMEM, returned by the capacity checks. -/
def ENOMEM : Nat := 12

/-- POSIX errno value EINVAL, returned for an unknown keyid. -/
def EINVAL : Nat := 22

/-- POSIX errno value EPERM, returned for a bad or missing system password. -/
def EPERM : Nat := 1

/-- SYS_PW from ex_encrypt.c: the fixed system password. -/
def SYS_PW : String := "system_password"

/-- Modulus of the C type size_t (64-bit platform). -/
def SIZE_T_MOD : Nat := 2 ^ 64

/-- Modulus of the C type uint32_t. -/
def U32_MOD : Nat := 2 ^ 32

/-- Wrapping size_t subtraction a - b, for operands a < 2^64, b <= 2^64. -/
def usub64 (a b : Nat) : Nat := (a + SIZE_T_MOD - b) % SIZE_T_MOD

/-- Wrapping size_t addition. -/
def uadd64 (a b : Nat) : Nat := (a + b) % SIZE_T_MOD

/-- Wrapping uint32_t subtraction a - b, for operands a < 2^32, b <= 2^32. -/
def usub32 (a b : Nat) : Nat := (a + U32_MOD - b) % U32_MOD

/-- The C ++ on a uint32_t field: increment wrapping at 2^32 - 1. -/
def uinc32 (n : Nat) : Nat := (n + 1) % U32_MOD

/-- C islower() in the C locale, on a byte value. -/
def islower (c : Nat) : Bool := 97 ≤ c && c ≤ 122

/-- C isupper() in the C locale, on a byte value. -/
def isupper (c : Nat) : Bool := 65 ≤ c && c ≤ 90

/-- C isalpha() in the C locale, on a byte value. -/
def isalpha (c : Nat) : Bool := islower c || isupper c

/-- Body of the loop of do_rotate on one byte: alphabetic bytes are
rotated by rotn inside their case, others unchanged. The intermediate
sum is uint32_t arithmetic, hence the % 2^32. -/
def rotate_byte (rotn c : Nat) : Nat :=
  if isalpha c then
    if islower c then (c - 97 + rotn) % U32_MOD % 26 + 97
    else (c - 65 + rotn) % U32_MOD % 26 + 65
  else c

/-- do_rotate from ex_encrypt.c. The loop counter i is uint32_t while
the length is size_t, so once the length reaches 2^32 the counter
wraps before reaching it and the loop never terminates: that
divergence is modelled as none. For shorter buffers the loop rewrites
every byte in place, modelled as a map. -/
def do_rotate (buf : List Nat) (rotn : Nat) : Option (List Nat) :=
  if buf.length < U32_MOD then some (buf.map (rotate_byte rotn)) else none

/-- The MY_CRYPTO struct: rot_N value, call counter (a uint32_t in the
C struct), and the saved keyid and password strings (None models a
NULL pointer). -/
structure MY_CRYPTO where
  rot_N : Nat
  num_calls : Nat
  keyid : Option String
  password : Option String
deriving DecidableEq, Repr

/-- make_cksum from ex_encrypt.c: CHKSUM_LEN bytes drawn from the
random stream (each a (uint8_t)random() value). -/
def make_cksum (r : Nat → Nat) : List Nat :=
  (List.range CHKSUM_LEN).map fun i => r i % 256

/-- make_iv from ex_encrypt.c: IV_LEN bytes drawn from the random
stream, after the checksum bytes. -/
def make_iv (r : Nat → Nat) : List Nat :=
  (List.range IV_LEN).map fun i => r (CHKSUM_LEN + i) % 256

/-- Overwrite of dst starting at offset off with the bytes xs, as a
memcpy into a buffer does. -/
def writeAt (dst : List Nat) (off : Nat) (xs : List Nat) : List Nat :=
  dst.take off ++ xs ++ dst.drop (off + xs.length)

/-- Read of n bytes starting at offset off, as memcpy from a source
buffer does; a read past the end of the list (undefined behavior in C)
yields 0. -/
def readBytes (src : List Nat) (off n : Nat) : List Nat :=
  (List.range n).map fun j => src.getD (off + j) 0

/-- Outcome of rotate_encrypt / rotate_decrypt when the call returns:
the returned errno, the destination buffer contents after the call,
and the value stored through result_lenp (None when the C code never
stores to it). -/
structure XformResult where
  ret : Nat
  dst : List Nat
  result_len : Option Nat
deriving DecidableEq, Repr

/-- rotate_encrypt from ex_encrypt.c. The counter is incremented first
(wrapping uint32_t ++); a NULL source returns 0 at once; then the
capacity check (size_t arithmetic), the copy of the source into
dst[20..], the rotate of that region (divergent, hence none, for
source lengths of 2^32 or more), and the checksum and IV writes;
result_lenp receives dst_len. The whole call is None exactly when the
C call never returns. -/
def rotate_encrypt (m : MY_CRYPTO) (r : Nat → Nat)
    (src : Option (List Nat)) (dst0 : List Nat) :
    Option (MY_CRYPTO × XformResult) :=
  let m1 : MY_CRYPTO := { m with num_calls := uinc32 m.num_calls }
  match src with
  | none => some (m1, ⟨0, dst0, none⟩)
  | some s =>
    let src_len := s.length
    let dst_len := dst0.length
    if dst_len < uadd64 src_len (CHKSUM_LEN + IV_LEN) then
      some (m1, ⟨ENOMEM, dst0, none⟩)
    else
      match do_rotate s m.rot_N with
      | none => none
      | some body =>
        let d1 := writeAt dst0 (CHKSUM_LEN + IV_LEN) body
        let d2 := writeAt d1 0 (make_cksum r)
        let d3 := writeAt d2 CHKSUM_LEN (make_iv r)
        some (m1, ⟨0, d3, some dst_len⟩)

/-- rotate_decrypt from ex_encrypt.c. The counter is incremented first
(wrapping uint32_t ++); a NULL source returns 0 at once; the capacity
check computes src_len - CHKSUM_LEN - IV_LEN in wrapping size_t
arithmetic; then dst_len bytes are copied from src[20..] and rotated
by 26 - rot_N (uint32_t arithmetic; the rotate diverges, hence none,
for dst_len of 2^32 or more); result_lenp receives dst_len. -/
def rotate_decrypt (m : MY_CRYPTO)
    (src : Option (List Nat)) (dst0 : List Nat) :
    Option (MY_CRYPTO × XformResult) :=
  let m1 : MY_CRYPTO := { m with num_calls := uinc32 m.num_calls }
  match src with
  | none => some (m1, ⟨0, dst0, none⟩)
  | some s =>
    let src_len := s.length
    let dst_len := dst0.length
    if dst_len < usub64 (usub64 src_len CHKSUM_LEN) IV_LEN then
      some (m1, ⟨ENOMEM, dst0, none⟩)
    else
      match do_rotate (readBytes s (CHKSUM_LEN + IV_LEN) dst_len)
          (usub32 26 m.rot_N) with
      | none => none
      | some out => some (m1, ⟨0, out, some dst_len⟩)

/-- rotate_sizing from ex_encrypt.c: increments the counter (wrapping)
and reports (return value 0, expansion constant CHKSUM_LEN + IV_LEN). -/
def rotate_sizing (m : MY_CRYPTO) : MY_CRYPTO × Nat × Nat :=
  ({ m with num_calls := uinc32 m.num_calls }, 0, CHKSUM_LEN + IV_LEN)

/-- Outcome of rotate_customize: returned errno, the instance stored
through customp (None when no instance is handed back), and whether
each of the three allocations made by the call (the keyid string copy,
the password string copy, the calloc of the instance) is still live
when the call returns. -/
structure CustomizeOut where
  ret : Nat
  inst : Option MY_CRYPTO
  liveKeyid : Bool
  livePassword : Bool
  liveInst : Bool
deriving DecidableEq, Repr

/-- rotate_customize from ex_encrypt.c. The template is read through a
const pointer and returned unchanged as the first component. The
configuration supplies the optional strings keyid and secretkey; a
missing key behaves as a zero-length item. The new instance copies the
template, the string fields are replaced by copies of the non-empty
configuration items, and the keyid is matched against the fixed map:
system requires the password to equal SYS_PW (else goto err, which
frees all three allocations and returns EPERM) and sets rot_N = 13;
user1 sets 4; user2 sets 19; anything else returns EINVAL directly,
with the three allocations still live. Only the success paths
increment the (new, wrapping uint32_t) counter. -/
def rotate_customize (orig : MY_CRYPTO) (cfg_keyid cfg_secret : Option String) :
    MY_CRYPTO × CustomizeOut :=
  let keyid_s : Option String :=
    match cfg_keyid with
    | some k => if k.length = 0 then none else some k
    | none => none
  let password_s : Option String :=
    match cfg_secret with
    | some s => if s.length = 0 then none else some s
    | none => none
  let item_matches : String → Bool := fun s =>
    match cfg_keyid with
    | some k => k = s
    | none => false
  let base : MY_CRYPTO :=
    { rot_N := orig.rot_N, num_calls := orig.num_calls,
      keyid := keyid_s, password := password_s }
  if item_matches "system" then
    if password_s = some SYS_PW then
      (orig, ⟨0, some { base with rot_N := 13, num_calls := uinc32 base.num_calls },
        keyid_s.isSome, password_s.isSome, true⟩)
    else
      (orig, ⟨EPERM, none, false, false, false⟩)
  else if item_matches "user1" then
    (orig, ⟨0, some { base with rot_N := 4, num_calls := uinc32 base.num_calls },
      keyid_s.isSome, password_s.isSome, true⟩)
  else if item_matches "user2" then
    (orig, ⟨0, some { base with rot_N := 19, num_calls := uinc32 base.num_calls },
      keyid_s.isSome, password_s.isSome, true⟩)
  else
    (orig, ⟨EINVAL, none, keyid_s.isSome, password_s.isSome, true⟩)

/-- Outcome of rotate_terminate: returned errno, the struct fields
after the call, and whether the keyid string, the password string and
the struct itself were freed by the call. -/
structure TerminateOut where
  ret : Nat
  state : MY_CRYPTO
  freedKeyid : Bool
  freedPassword : Bool
  freedInst : Bool
deriving DecidableEq, Repr

/-- rotate_terminate from ex_encrypt.c: increments the counter (the
wrapping uint32_t ++), frees the password and keyid strings when
present (setting the fields to NULL), and frees the struct itself
exactly when the encryptor is not the global my_crypto_global template
(isGlobal models that pointer comparison). -/
def rotate_terminate (m : MY_CRYPTO) (isGlobal : Bool) : TerminateOut :=
  ⟨0, { m with num_calls := uinc32 m.num_calls, password := none, keyid := none },
    m.keyid.isSome, m.password.isSome, !isGlobal⟩

/-- Rotating a byte by p and then by 26 - p gives the byte back, for
any rotation distance p at most 26. -/
lemma rotate_byte_roundtrip (p c : Nat) (hp : p ≤ 26) :
    rotate_byte (26 - p) (rotate_byte p c) = c := by
  unfold rotate_byte isalpha islower isupper U32_MOD
  simp only [Bool.or_eq_true, Bool.and_eq_true, decide_eq_true_eq]
  split_ifs <;> omega

/-- The rotate loop body by the uint32_t value 26 - p undoes the loop
body by p, pointwise over the whole buffer. -/
lemma rotate_map_roundtrip (x : List Nat) (p : Nat) (hp : p ≤ 26) :
    (x.map (rotate_byte p)).map (rotate_byte (usub32 26 p)) = x := by
  have h26 : usub32 26 p = 26 - p := by
    unfold usub32 U32_MOD
    omega
  rw [h26, List.map_map,
    show rotate_byte (26 - p) ∘ rotate_byte p = id from
      funext fun c => rotate_byte_roundtrip p c hp,
    List.map_id]

/-- On buffers shorter than 2^32 the rotate loop terminates and
rewrites every byte. -/
lemma do_rotate_some (buf : List Nat) (rotn : Nat) (h : buf.length < U32_MOD) :
    do_rotate buf rotn = some (buf.map (rotate_byte rotn)) := by
  simp only [do_rotate, if_pos h]

/-- On buffers of length 2^32 or more the rotate loop diverges. -/
lemma do_rotate_none (buf : List Nat) (rotn : Nat) (h : U32_MOD ≤ buf.length) :
    do_rotate buf rotn = none := by
  simp only [do_rotate, if_neg (by omega : ¬ buf.length < U32_MOD)]

/-- The three destination writes of rotate_encrypt assemble the record
checksum plus IV plus body when the buffer has the exact size. -/
lemma writeAt_envelope (dst0 ck iv body : List Nat)
    (h : dst0.length = body.length + 20) (hck : ck.length = 4) (hiv : iv.length = 16) :
    writeAt (writeAt (writeAt dst0 (CHKSUM_LEN + IV_LEN) body) 0 ck) CHKSUM_LEN iv
      = ck ++ iv ++ body := by
  have h20 : (dst0.take 20).length = 20 := by
    rw [List.length_take]
    omega
  unfold CHKSUM_LEN IV_LEN
  have e1 : writeAt dst0 (4 + 16) body = dst0.take 20 ++ body := by
    unfold writeAt
    have hd : dst0.drop (4 + 16 + body.length) = [] :=
      List.drop_eq_nil_of_le (by omega)
    rw [hd]
    norm_num
  rw [e1]
  have e2 : writeAt (dst0.take 20 ++ body) 0 ck = ck ++ ((dst0.take 20).drop 4 ++ body) := by
    unfold writeAt
    rw [hck, List.drop_append_eq_append_drop, h20]
    norm_num
  rw [e2]
  unfold writeAt
  rw [hiv]
  have e3 : (ck ++ ((dst0.take 20).drop 4 ++ body)).take 4 = ck := by
    rw [List.take_append_eq_append_take, hck, List.take_of_length_le (le_of_eq hck)]
    norm_num
  have hl4 : ((dst0.take 20).drop 4).length = 16 := by
    rw [List.length_drop, h20]
  have e4 : (ck ++ ((dst0.take 20).drop 4 ++ body)).drop (4 + 16) = body := by
    rw [List.drop_append_eq_append_drop,
      List.drop_eq_nil_of_le (by omega : ck.length ≤ 4 + 16), List.nil_append, hck,
      List.drop_append_eq_append_drop,
      List.drop_eq_nil_of_le
        (by omega : ((dst0.take 20).drop 4).length ≤ 4 + 16 - 4),
      List.nil_append, hl4]
    norm_num
  rw [e3, e4]

/-- An in-bounds memcpy read is a drop followed by a take. -/
lemma readBytes_in_range (l : List Nat) (off n : Nat) (h : off + n ≤ l.length) :
    readBytes l off n = (l.drop off).take n := by
  apply List.ext_getElem
  · simp [readBytes]
    omega
  · intro i h1 h2
    simp only [readBytes, List.getElem_map, List.getElem_range, List.getElem_take,
      List.getElem_drop]
    have hin : off + i < l.length := by
      simp only [readBytes, List.length_map, List.length_range] at h1
      omega
    rw [List.getD_eq_getElem l 0 hin]

/-- A memcpy read of n bytes yields n bytes. -/
lemma readBytes_length (l : List Nat) (off n : Nat) :
    (readBytes l off n).length = n := by
  simp [readBytes]

/-- rotate_encrypt on a destination of exactly the required size, with
a source short enough for the rotate loop to terminate, produces the
record checksum plus IV plus rotated source, reporting the full
destination length. -/
lemma encrypt_exact (m : MY_CRYPTO) (r : Nat → Nat) (s dst0 : List Nat)
    (hlen : dst0.length = s.length + 20) (h32 : s.length < U32_MOD) :
    rotate_encrypt m r (some s) dst0 =
      some ({ m with num_calls := uinc32 m.num_calls },
        ⟨0, make_cksum r ++ make_iv r ++ s.map (rotate_byte m.rot_N),
          some (s.length + 20)⟩) := by
  have hcond : ¬ (dst0.length < uadd64 s.length (CHKSUM_LEN + IV_LEN)) := by
    unfold uadd64 CHKSUM_LEN IV_LEN SIZE_T_MOD at *
    unfold U32_MOD at h32
    omega
  simp only [rotate_encrypt, if_neg hcond, do_rotate_some s m.rot_N h32]
  rw [writeAt_envelope dst0 (make_cksum r) (make_iv r) (s.map (rotate_byte m.rot_N))
    (by rw [hlen, List.length_map])
    (by simp [make_cksum, CHKSUM_LEN]) (by simp [make_iv, IV_LEN])]
  rw [hlen]

/-- rotate_decrypt on a destination of exactly the record length minus
the 20-byte header, short enough for the rotate loop to terminate,
strips the header and rotates by 26 - rot_N. -/
lemma decrypt_exact (m : MY_CRYPTO) (rcd d0 : List Nat)
    (h20 : 20 ≤ rcd.length) (hsz : rcd.length < SIZE_T_MOD)
    (hd : d0.length = rcd.length - 20) (h32 : d0.length < U32_MOD) :
    rotate_decrypt m (some rcd) d0 =
      some ({ m with num_calls := uinc32 m.num_calls },
        ⟨0, (rcd.drop 20).map (rotate_byte (usub32 26 m.rot_N)),
          some (rcd.length - 20)⟩) := by
  have hcond : ¬ (d0.length < usub64 (usub64 rcd.length CHKSUM_LEN) IV_LEN) := by
    unfold usub64 CHKSUM_LEN IV_LEN SIZE_T_MOD at *
    omega
  have hrl : (readBytes rcd (CHKSUM_LEN + IV_LEN) d0.length).length < U32_MOD := by
    rw [readBytes_length]
    exact h32
  simp only [rotate_decrypt, if_neg hcond,
    do_rotate_some (readBytes rcd (CHKSUM_LEN + IV_LEN) d0.length) (usub32 26 m.rot_N) hrl]
  rw [readBytes_in_range rcd (CHKSUM_LEN + IV_LEN) d0.length
    (by unfold CHKSUM_LEN IV_LEN; omega)]
  have ht : (rcd.drop (CHKSUM_LEN + IV_LEN)).take d0.length = rcd.drop 20 := by
    show (rcd.drop 20).take d0.length = rcd.drop 20
    apply List.take_of_length_le
    rw [List.length_drop]
    omega
  rw [ht, hd]

/-- Every completed rotate_encrypt call returns the serving instance
with its counter advanced by exactly one wrapping increment. -/
lemma encrypt_served (m : MY_CRYPTO) (r : Nat → Nat) (src : Option (List Nat))
    (dst0 : List Nat) (e : MY_CRYPTO × XformResult)
    (he : rotate_encrypt m r src dst0 = some e) :
    e.1 = { m with num_calls := uinc32 m.num_calls } := by
  cases src with
  | none =>
    simp only [rotate_encrypt, Option.some.injEq] at he
    rw [← he]
  | some s =>
    simp only [rotate_encrypt] at he
    split at he
    · simp only [Option.some.injEq] at he
      rw [← he]
    · cases hdo : do_rotate s m.rot_N with
      | none =>
        rw [hdo] at he
        exact absurd he (by simp)
      | some body =>
        rw [hdo] at he
        simp only [Option.some.injEq] at he
        rw [← he]

/-- Every completed rotate_decrypt call returns the serving instance
with its counter advanced by exactly one wrapping increment. -/
lemma decrypt_served (m : MY_CRYPTO) (src : Option (List Nat))
    (dst0 : List Nat) (e : MY_CRYPTO × XformResult)
    (he : rotate_decrypt m src dst0 = some e) :
    e.1 = { m with num_calls := uinc32 m.num_calls } := by
  cases src with
  | none =>
    simp only [rotate_decrypt, Option.some.injEq] at he
    rw [← he]
  | some s =>
    simp only [rotate_decrypt] at he
    split at he
    · simp only [Option.some.injEq] at he
      rw [← he]
    · cases hdo : do_rotate (readBytes s (CHKSUM_LEN + IV_LEN) dst0.length)
          (usub32 26 m.rot_N) with
      | none =>
        rw [hdo] at he
        exact absurd he (by simp)
      | some out =>
        rw [hdo] at he
        simp only [Option.some.injEq] at he
        rw [← he]

/-- Counterexample to C1 as stated: for a byte sequence of length
2^32 the uint32_t loop index of do_rotate never reaches the size_t
length, so encode never returns and no round trip happens; the rotate
loop and the whole encode call diverge (none) at this concrete input. -/
theorem C1_divergence_cex :
    do_rotate (List.replicate U32_MOD 97) 4 = none ∧
    rotate_encrypt ⟨4, 0, none, none⟩ (fun _ => 0)
        (some (List.replicate U32_MOD 97)) (List.replicate (U32_MOD + 20) 0) = none := by
  have key : ∀ s d : List Nat, s.length = U32_MOD → d.length = U32_MOD + 20 →
      rotate_encrypt ⟨4, 0, none, none⟩ (fun _ => 0) (some s) d = none := by
    intro s d hs hd
    have hcond : ¬ (d.length < uadd64 s.length (CHKSUM_LEN + IV_LEN)) := by
      unfold uadd64 CHKSUM_LEN IV_LEN SIZE_T_MOD U32_MOD at *
      omega
    have hdo : do_rotate s (⟨4, 0, none, none⟩ : MY_CRYPTO).rot_N = none :=
      do_rotate_none s _ (le_of_eq hs.symm)
    simp only [rotate_encrypt, if_neg hcond, hdo]
  refine ⟨do_rotate_none _ 4 (by simp), key _ _ (by simp) (by simp)⟩

/-- C1 amended: for every byte sequence x shorter than 2^32 bytes (the
domain on which the rotate loop terminates) and every parameter p in
{4, 13, 19}, with contract-sized buffers, encode completes with return
value 0 and decoding its record returns exactly x. -/
theorem C1_round_trip (p : Nat) (hp : p = 4 ∨ p = 13 ∨ p = 19)
    (x : List Nat) (hx : x.length < U32_MOD)
    (me md : MY_CRYPTO) (hme : me.rot_N = p) (hmd : md.rot_N = p)
    (r : Nat → Nat) (dst0 dst1 : List Nat)
    (h0 : dst0.length = x.length + 20) (h1 : dst1.length = x.length) :
    ((rotate_encrypt me r (some x) dst0).map fun e => e.2.ret) = some 0 ∧
    (((rotate_encrypt me r (some x) dst0).bind fun e =>
        rotate_decrypt md (some e.2.dst) dst1).map fun d => d.2)
      = some ⟨0, x, some x.length⟩ := by
  rw [encrypt_exact me r x dst0 h0 hx]
  refine ⟨rfl, ?_⟩
  have hrec : (make_cksum r ++ make_iv r ++ x.map (rotate_byte me.rot_N)).length
      = x.length + 20 := by
    simp [make_cksum, make_iv, CHKSUM_LEN, IV_LEN]
    omega
  have hsz : (make_cksum r ++ make_iv r ++ x.map (rotate_byte me.rot_N)).length
      < SIZE_T_MOD := by
    rw [hrec]
    unfold U32_MOD at hx
    unfold SIZE_T_MOD
    omega
  rw [Option.some_bind]
  rw [decrypt_exact md _ dst1 (by omega) hsz (by omega) (by omega)]
  have hdrop : (make_cksum r ++ make_iv r ++ x.map (rotate_byte me.rot_N)).drop 20
      = x.map (rotate_byte p) := by
    rw [hme]
    apply List.drop_left'
    simp [make_cksum, make_iv, CHKSUM_LEN, IV_LEN]
  rw [hrec, hdrop, hmd, rotate_map_roundtrip x p (by omega)]
  simp

/-- Witness for C1 amended: round trip of the 3 bytes "hi!" under
parameter 4. -/
theorem C1_witness :
    ((rotate_encrypt ⟨4, 0, none, none⟩ (fun _ => 7) (some [104, 105, 33])
        (List.replicate 23 0)).map fun e => e.2.ret) = some 0 ∧
    (((rotate_encrypt ⟨4, 0, none, none⟩ (fun _ => 7) (some [104, 105, 33])
        (List.replicate 23 0)).bind fun e =>
        rotate_decrypt ⟨4, 9, none, none⟩ (some e.2.dst) (List.replicate 3 0)).map
      fun d => d.2) = some ⟨0, [104, 105, 33], some 3⟩ :=
  C1_round_trip 4 (Or.inl rfl) [104, 105, 33] (by decide) ⟨4, 0, none, none⟩
    ⟨4, 9, none, none⟩ rfl rfl (fun _ => 7) (List.replicate 23 0) (List.replicate 3 0)
    (by decide) (by decide)

/-- C2: rotate_customize succeeds on the fixed keyid mapping with the
stated derived parameter: keyid system with the exact system password
gives rot_N = 13; keyid user1 gives rot_N = 4 for any secret; keyid
user2 gives rot_N = 19 for any secret. -/
theorem C2_customize_success (orig : MY_CRYPTO) (sec : Option String) :
    ((rotate_customize orig (some "system") (some "system_password")).2.ret = 0 ∧
      (rotate_customize orig (some "system") (some "system_password")).2.inst.map
        MY_CRYPTO.rot_N = some 13) ∧
    ((rotate_customize orig (some "user1") sec).2.ret = 0 ∧
      (rotate_customize orig (some "user1") sec).2.inst.map MY_CRYPTO.rot_N = some 4) ∧
    ((rotate_customize orig (some "user2") sec).2.ret = 0 ∧
      (rotate_customize orig (some "user2") sec).2.inst.map MY_CRYPTO.rot_N = some 19) :=
  ⟨⟨rfl, rfl⟩, ⟨rfl, rfl⟩, ⟨rfl, rfl⟩⟩

/-- C3: rotate_customize fails with EPERM when keyid is system and the
secret is absent or different from the system password, and with
EINVAL when keyid is absent, empty, or outside the fixed set; in every
failure case no instance is handed back. -/
theorem C3_customize_failures (orig : MY_CRYPTO) :
    (∀ sec, sec ≠ some SYS_PW →
      (rotate_customize orig (some "system") sec).2.ret = EPERM ∧
      (rotate_customize orig (some "system") sec).2.inst = none) ∧
    (∀ sec, (rotate_customize orig none sec).2.ret = EINVAL ∧
      (rotate_customize orig none sec).2.inst = none) ∧
    (∀ sec, (rotate_customize orig (some "") sec).2.ret = EINVAL ∧
      (rotate_customize orig (some "") sec).2.inst = none) ∧
    (∀ (k : String) (sec : Option String), k ≠ "system" → k ≠ "user1" → k ≠ "user2" →
      (rotate_customize orig (some k) sec).2.ret = EINVAL ∧
      (rotate_customize orig (some k) sec).2.inst = none) := by
  refine ⟨?_, ?_, ?_, ?_⟩
  · intro sec hsec
    cases sec with
    | none => exact ⟨rfl, rfl⟩
    | some s =>
      have hs : s ≠ SYS_PW := fun h => hsec (by rw [h])
      by_cases hlen : s.length = 0
      · simp [rotate_customize, hlen]
      · simp [rotate_customize, hlen, hs]
  · intro sec
    exact ⟨rfl, rfl⟩
  · intro sec
    exact ⟨rfl, rfl⟩
  · intro k sec h1 h2 h3
    simp [rotate_customize, h1, h2, h3]

/-- Witness for C3: the four failure shapes at concrete inputs. -/
theorem C3_witness :
    (rotate_customize ⟨0, 0, none, none⟩ (some "system") (some "bad_password")).2.ret
        = EPERM ∧
    (rotate_customize ⟨0, 0, none, none⟩ none none).2.ret = EINVAL ∧
    (rotate_customize ⟨0, 0, none, none⟩ (some "") none).2.ret = EINVAL ∧
    (rotate_customize ⟨0, 0, none, none⟩ (some "userbad") none).2.ret = EINVAL :=
  ⟨((C3_customize_failures ⟨0, 0, none, none⟩).1 (some "bad_password") (by decide)).1,
   ((C3_customize_failures ⟨0, 0, none, none⟩).2.1 none).1,
   ((C3_customize_failures ⟨0, 0, none, none⟩).2.2.1 none).1,
   ((C3_customize_failures ⟨0, 0, none, none⟩).2.2.2 "userbad" none
     (by decide) (by decide) (by decide)).1⟩

/-- C4: the EINVAL path of rotate_customize (unknown keyid, here
userbad, after the keyid and secret strings were copied) returns with
the keyid copy, the secret copy and the calloc-ed instance all still
allocated, unlike the EPERM path which frees all three; this
contradicts the no-leak-on-error requirement of the specification. -/
theorem C4_einval_leak :
    (rotate_customize ⟨0, 0, none, none⟩ (some "userbad") (some "pw")).2
        = ⟨EINVAL, none, true, true, true⟩ ∧
    (rotate_customize ⟨0, 0, none, none⟩ (some "system") (some "bad_password")).2
        = ⟨EPERM, none, false, false, false⟩ :=
  ⟨by decide, by decide⟩

/-- Counterexample to C5 as stated: encode of a 1-byte input given a
destination capacity of 22 (sufficient, since 21 is required) reports
22 bytes, not the exact 1 + 20 = 21. -/
theorem C5_reports_capacity_not_exact :
    ((rotate_encrypt ⟨4, 0, none, none⟩ (fun _ => 0) (some [97])
      (List.replicate 22 0)).map fun e => e.2.result_len) ≠ some (some 21) := by
  decide

/-- C5 amended: encode and decode store the full destination capacity
dst_len through result_lenp, not the exact sizes; only when the
capacity is exactly len(x) + 20 (resp. exactly n - 20 for a record of
length n at least 20) is the reported count the exact size the claim
states; sizing reports the fixed expansion constant 20. The inputs are
bounded by 2^32 (source for encode, destination for decode), the
domain on which the uint32_t-indexed rotate loop terminates. -/
theorem C5_exact_capacity_sizes (m : MY_CRYPTO) (r : Nat → Nat) (x dst0 : List Nat)
    (hx : x.length < U32_MOD) (h0 : dst0.length = x.length + 20) :
    ((rotate_encrypt m r (some x) dst0).map fun e => (e.2.ret, e.2.result_len))
        = some (0, some (x.length + 20)) ∧
    (rotate_sizing m).2.2 = 20 ∧
    (∀ rcd d0 : List Nat, 20 ≤ rcd.length → rcd.length < SIZE_T_MOD →
      d0.length = rcd.length - 20 → d0.length < U32_MOD →
      ((rotate_decrypt m (some rcd) d0).map fun e => (e.2.ret, e.2.result_len))
        = some (0, some (rcd.length - 20))) := by
  refine ⟨?_, rfl, ?_⟩
  · rw [encrypt_exact m r x dst0 h0 hx]
    rfl
  · intro rcd d0 ha hb hc hd32
    rw [decrypt_exact m rcd d0 ha hb hc hd32]
    rfl

/-- Witness for C5 amended: 1-byte encode at exact capacity 21 reports
21; decode of a 20-byte record at exact capacity 0 reports 0. -/
theorem C5_witness :
    ((rotate_encrypt ⟨4, 0, none, none⟩ (fun _ => 0) (some [97])
        (List.replicate 21 0)).map fun e => (e.2.ret, e.2.result_len))
        = some (0, some 21) ∧
    (rotate_sizing ⟨4, 0, none, none⟩).2.2 = 20 ∧
    ((rotate_decrypt ⟨4, 0, none, none⟩ (some (List.replicate 20 0)) []).map
        fun e => (e.2.ret, e.2.result_len)) = some (0, some 0) :=
  let T := C5_exact_capacity_sizes ⟨4, 0, none, none⟩ (fun _ => 0) [97]
    (List.replicate 21 0) (by decide) (by decide)
  ⟨T.1, T.2.1, T.2.2 (List.replicate 20 0) [] (by decide) (by decide) (by decide)
    (by decide)⟩

/-- Counterexample to C6 as stated: decode with a zero-length
(non-NULL) input does not succeed; the size_t underflow in the
capacity check makes it return ENOMEM even with a 100-byte
destination. -/
theorem C6_zero_length_not_noop :
    ((rotate_decrypt ⟨4, 0, none, none⟩ (some []) (List.replicate 100 0)).map
      fun e => e.2.ret) ≠ some 0 := by
  decide

/-- C6 amended: only an absent (NULL) input is the successful no-op
the claim describes (return 0, destination untouched, nothing stored
through result_lenp). A zero-length non-NULL input is not a no-op:
decode fails with ENOMEM for every destination capacity below
2^64 - 20, and encode demands a capacity of at least 20 (failing with
ENOMEM below that, otherwise writing the header and reporting the full
destination capacity). -/
theorem C6_null_input_noop (m : MY_CRYPTO) (r : Nat → Nat) (dst0 : List Nat) :
    (((rotate_encrypt m r none dst0).map fun e => e.2) = some ⟨0, dst0, none⟩ ∧
     ((rotate_decrypt m none dst0).map fun e => e.2) = some ⟨0, dst0, none⟩) ∧
    (∀ d0 : List Nat, d0.length < SIZE_T_MOD - 20 →
      ((rotate_decrypt m (some []) d0).map fun e => e.2) = some ⟨ENOMEM, d0, none⟩) ∧
    (∀ d0 : List Nat, d0.length < 20 →
      ((rotate_encrypt m r (some []) d0).map fun e => e.2) = some ⟨ENOMEM, d0, none⟩) ∧
    (∀ d0 : List Nat, 20 ≤ d0.length →
      ((rotate_encrypt m r (some []) d0).map fun e => (e.2.ret, e.2.result_len))
        = some (0, some d0.length)) := by
  refine ⟨⟨rfl, rfl⟩, ?_, ?_, ?_⟩
  · intro d0 h
    have hcond : d0.length <
        usub64 (usub64 (List.length ([] : List Nat)) CHKSUM_LEN) IV_LEN := by
      unfold usub64 CHKSUM_LEN IV_LEN SIZE_T_MOD at *
      simp only [List.length_nil]
      omega
    simp only [rotate_decrypt, if_pos hcond]
    rfl
  · intro d0 h
    have hcond : d0.length <
        uadd64 (List.length ([] : List Nat)) (CHKSUM_LEN + IV_LEN) := by
      unfold uadd64 CHKSUM_LEN IV_LEN SIZE_T_MOD at *
      simp only [List.length_nil]
      omega
    simp only [rotate_encrypt, if_pos hcond]
    rfl
  · intro d0 h
    have hcond : ¬ (d0.length <
        uadd64 (List.length ([] : List Nat)) (CHKSUM_LEN + IV_LEN)) := by
      unfold uadd64 CHKSUM_LEN IV_LEN SIZE_T_MOD at *
      simp only [List.length_nil]
      omega
    simp only [rotate_encrypt, if_neg hcond,
      do_rotate_some ([] : List Nat) m.rot_N (by norm_num [U32_MOD])]
    rfl

/-- Witness for C6 amended: NULL input no-ops, the ENOMEM failures of
zero-length inputs, and the 20-byte header written for a zero-length
encode at capacity 20. -/
theorem C6_witness :
    (((rotate_encrypt ⟨4, 0, none, none⟩ (fun _ => 0) none [5]).map fun e => e.2)
        = some ⟨0, [5], none⟩ ∧
     ((rotate_decrypt ⟨4, 0, none, none⟩ none [5]).map fun e => e.2)
        = some ⟨0, [5], none⟩) ∧
    ((rotate_decrypt ⟨4, 0, none, none⟩ (some []) []).map fun e => e.2)
        = some ⟨ENOMEM, [], none⟩ ∧
    ((rotate_encrypt ⟨4, 0, none, none⟩ (fun _ => 0) (some []) []).map fun e => e.2)
        = some ⟨ENOMEM, [], none⟩ ∧
    ((rotate_encrypt ⟨4, 0, none, none⟩ (fun _ => 0) (some [])
        (List.replicate 20 0)).map fun e => (e.2.ret, e.2.result_len))
        = some (0, some 20) :=
  let T := C6_null_input_noop ⟨4, 0, none, none⟩ (fun _ => 0) [5]
  ⟨T.1, T.2.1 [] (by decide), T.2.2.1 [] (by decide),
    T.2.2.2 (List.replicate 20 0) (by decide)⟩

/-- C7: encode with a destination one byte short of len(input) + 20
returns ENOMEM and leaves the destination untouched, storing nothing
through result_lenp; decode of a record of length n at least 20 with a
destination one byte short of n - 20 does the same. -/
theorem C7_one_byte_short (m : MY_CRYPTO) (r : Nat → Nat) :
    (∀ x dst0 : List Nat, x ≠ [] → x.length + 20 < SIZE_T_MOD →
      dst0.length + 1 = x.length + 20 →
      ((rotate_encrypt m r (some x) dst0).map fun e => e.2)
        = some ⟨ENOMEM, dst0, none⟩) ∧
    (∀ rcd d0 : List Nat, 20 ≤ rcd.length → rcd.length < SIZE_T_MOD →
      d0.length + 1 = rcd.length - 20 →
      ((rotate_decrypt m (some rcd) d0).map fun e => e.2)
        = some ⟨ENOMEM, d0, none⟩) := by
  constructor
  · intro x dst0 hne hsz hlen
    have hcond : dst0.length < uadd64 x.length (CHKSUM_LEN + IV_LEN) := by
      unfold uadd64 CHKSUM_LEN IV_LEN SIZE_T_MOD at *
      omega
    simp only [rotate_encrypt, if_pos hcond]
    rfl
  · intro rcd d0 h20 hsz hlen
    have hcond : d0.length < usub64 (usub64 rcd.length CHKSUM_LEN) IV_LEN := by
      unfold usub64 CHKSUM_LEN IV_LEN SIZE_T_MOD at *
      omega
    simp only [rotate_decrypt, if_pos hcond]
    rfl

/-- Witness for C7: 1-byte encode at capacity 20 and a 21-byte record
decoded at capacity 0 both fail with ENOMEM and write nothing. -/
theorem C7_witness :
    ((rotate_encrypt ⟨4, 0, none, none⟩ (fun _ => 0) (some [97])
        (List.replicate 20 0)).map fun e => e.2)
        = some ⟨ENOMEM, List.replicate 20 0, none⟩ ∧
    ((rotate_decrypt ⟨4, 0, none, none⟩ (some (List.replicate 21 0)) []).map
        fun e => e.2) = some ⟨ENOMEM, [], none⟩ :=
  ⟨(C7_one_byte_short ⟨4, 0, none, none⟩ (fun _ => 0)).1 [97] (List.replicate 20 0)
      (by decide) (by decide) (by decide),
   (C7_one_byte_short ⟨4, 0, none, none⟩ (fun _ => 0)).2 (List.replicate 21 0) []
      (by decide) (by decide) (by decide)⟩

/-- Counterexample to C8 as stated: a customize invocation served by
the template does not increment the serving instance counter: serving
a user1 customize, a template with counter 5 still has counter 5, not
6 (the increment lands only on the new instance). -/
theorem C8_customize_serving_counter :
    (rotate_customize ⟨0, 5, none, none⟩ (some "user1") none).1.num_calls ≠ 5 + 1 := by
  decide

/-- C8 amended: every completed encode, decode and sizing call
advances the serving instance counter by the wrapping uint32_t
increment (plus one modulo 2^32, so the counter falls back to 0 from
2^32 - 1 rather than never decreasing); customize leaves the serving
template unchanged, on success the new instance counter equals the
wrapping increment of the template value at seeding time, and a failed
customize increments no counter. -/
theorem C8_call_counting (m : MY_CRYPTO) (r : Nat → Nat) (src : Option (List Nat))
    (dst0 : List Nat) (k s : Option String) :
    (∀ e, rotate_encrypt m r src dst0 = some e →
      e.1.num_calls = uinc32 m.num_calls) ∧
    (∀ e, rotate_decrypt m src dst0 = some e →
      e.1.num_calls = uinc32 m.num_calls) ∧
    (rotate_sizing m).1.num_calls = uinc32 m.num_calls ∧
    uinc32 (U32_MOD - 1) = 0 ∧
    (rotate_customize m k s).1 = m ∧
    (∀ i, (rotate_customize m k s).2.inst = some i →
      i.num_calls = uinc32 m.num_calls) := by
  refine ⟨?_, ?_, rfl, by decide, ?_, ?_⟩
  · intro e he
    rw [encrypt_served m r src dst0 e he]
  · intro e he
    rw [decrypt_served m src dst0 e he]
  · simp only [rotate_customize]
    split_ifs <;> rfl
  · intro i hi
    revert hi
    simp only [rotate_customize]
    split_ifs <;> intro hi <;> simp at hi
    all_goals rw [← hi]

/-- Witness for C8 amended: a completed encode advances the counter by
the wrapping increment, sizing does too, and the instance created by a
user1 customize starts at the wrapping increment of the template
counter. -/
theorem C8_witness :
    ((⟨0, 1, none, none⟩ : MY_CRYPTO), (⟨0, [], none⟩ : XformResult)).1.num_calls
        = uinc32 0 ∧
    (rotate_sizing ⟨0, 0, none, none⟩).1.num_calls = uinc32 0 ∧
    (⟨4, 1, some "user1", none⟩ : MY_CRYPTO).num_calls = uinc32 0 :=
  let T := C8_call_counting ⟨0, 0, none, none⟩ (fun _ => 0) none [] (some "user1") none
  ⟨T.1 (⟨0, 1, none, none⟩, ⟨0, [], none⟩) (by decide), T.2.2.1,
    T.2.2.2.2.2 ⟨4, 1, some "user1", none⟩ (by decide)⟩

/-- C9: rotate_terminate returns 0, releases the keyid and password
strings exactly when they were present and NULLs the fields, advances
the counter by the wrapping uint32_t increment as the final recorded
operation, and frees the struct itself exactly when the instance is
not the process-wide template. -/
theorem C9_terminate (m : MY_CRYPTO) (g : Bool) :
    (rotate_terminate m g).ret = 0 ∧
    (rotate_terminate m g).state.keyid = none ∧
    (rotate_terminate m g).state.password = none ∧
    (rotate_terminate m g).state.num_calls = uinc32 m.num_calls ∧
    (rotate_terminate m g).freedKeyid = m.keyid.isSome ∧
    (rotate_terminate m g).freedPassword = m.password.isSome ∧
    (rotate_terminate m g).freedInst = !g :=
  ⟨rfl, rfl, rfl, rfl, rfl, rfl, rfl⟩

/-- C10: for every non-NULL source of length strictly between 0 and
20, the required-size computation src_len - 4 - 16 wraps in size_t
arithmetic to 2^64 - 20 + src_len, so decode returns ENOMEM and writes
nothing for every destination capacity below that bound. -/
theorem C10_short_record_underflow (m : MY_CRYPTO) (s d0 : List Nat)
    (h1 : 0 < s.length) (h2 : s.length < 20)
    (h3 : d0.length < SIZE_T_MOD - 20 + s.length) :
    usub64 (usub64 s.length CHKSUM_LEN) IV_LEN = SIZE_T_MOD - 20 + s.length ∧
    ((rotate_decrypt m (some s) d0).map fun e => e.2) = some ⟨ENOMEM, d0, none⟩ := by
  have he : usub64 (usub64 s.length CHKSUM_LEN) IV_LEN = SIZE_T_MOD - 20 + s.length := by
    unfold usub64 CHKSUM_LEN IV_LEN SIZE_T_MOD
    omega
  refine ⟨he, ?_⟩
  have hcond : d0.length < usub64 (usub64 s.length CHKSUM_LEN) IV_LEN := by
    rw [he]
    exact h3
  simp only [rotate_decrypt, if_pos hcond]
  rfl

/-- Witness for C10: a 1-byte record decoded into an empty destination
fails with ENOMEM through the wrapped size computation. -/
theorem C10_witness :
    usub64 (usub64 ([1] : List Nat).length CHKSUM_LEN) IV_LEN = SIZE_T_MOD - 20 + 1 ∧
    ((rotate_decrypt ⟨4, 0, none, none⟩ (some [1]) []).map fun e => e.2)
        = some ⟨ENOMEM, [], none⟩ :=
  C10_short_record_underflow ⟨4, 0, none, none⟩ [1] [] (by decide) (by decide) (by decide)
